import Mathlib

/-
Verification of the callback-scheduling core of the atooms simulation driver
(file atooms/simulation/core.py, class Simulation).

Shallow embedding notes.
* Observer identities (Python callables compared by equality in the registry)
  are modelled by CbId, a pair of a numeric id and the name the role dispatch
  inspects.  The behaviour attached to an identity (reset hook, speedometer
  instance check, effect when invoked) lives in an environment Env, mirroring
  the fact that a Python callable carries its behaviour with its identity.
* Step counters are Int (Python ints), wall-clock times are rationals.
* Schedulers (class Scheduler of atooms.simulation.observers, not part of the
  source tree) are consumed by the core only as callables returning the next
  absolute step; they are modelled as functions from the current step count
  to the next trigger step.
* Python exceptions are explicit: Exc for control-flow exceptions crossing the
  run loop, PyErr for the errors raised inside the timing helpers.
* Side effects visible to the claims (observer notification, reset hooks,
  checkpoint writes, the failure and completion log markers) are recorded in
  an event trace appended to the state.
-/

namespace Atooms

/-- A character-list prefix test: the first list is a prefix of the second. -/
def charPre : List Char → List Char → Bool
  | [], _ => true
  | _ :: _, [] => false
  | a :: as, b :: bs => a == b && charPre as bs

/-- Substring containment on character lists, as the Python operator in. -/
def containsSub (pat : List Char) : List Char → Bool
  | [] => charPre pat []
  | b :: bs => charPre pat (b :: bs) || containsSub pat bs

/-- Identity of a registered observer: a tag plus the name whose lower-cased
text drives the role dispatch in Simulation.add. -/
structure CbId where
  tag : Nat
  name : String
deriving DecidableEq, Repr

/-- Role dispatch of Simulation.add and Simulation._targeters: an observer is
a targeter exactly when its lower-cased name contains the substring target. -/
def isTargeter (c : CbId) : Bool :=
  containsSub "target".data (c.name.data.map Char.toLower)

/-- A scheduler as consumed by the run loop: the next absolute trigger step,
as a function of the current step count. -/
def Sched : Type := Int → Int

/-- What Simulation.add stores per observer in _cbk_params: the scheduler and
the invocation arguments. -/
structure Params where
  sched : Sched
  args : List Int

/-- Events recorded by the model: observer notification, reset-hook calls,
checkpoint writes, and the log markers the error-handling claims mention. -/
inductive Ev where
  | notified (c : CbId)
  | cleared (c : CbId)
  | checkpoint
  | reportEnd
  | simFailed
  | goodbye
deriving DecidableEq, Repr

/-- Errors raised inside the timing helpers. -/
inductive PyErr where
  | attributeError
  | zeroDivisionError
deriving DecidableEq, Repr

/-- Exceptions crossing the run loop of Simulation.run. -/
inductive Exc where
  | simulationEnd
  | keyboardInterrupt
  | otherError
deriving DecidableEq, Repr

/-- Result of invoking an observer callable. -/
inductive ObsAct where
  | ok
  | raised (e : Exc)
deriving DecidableEq, Repr

/-- The physical system as seen by the timing code: only the particle list is
consumed (via len). -/
structure PySystem where
  particle : List Unit

/-- State of a Simulation instance: the fields of atooms/simulation/core.py
read or written by the claims, plus the event trace. The backend is inlined
as the backend-prefixed fields (its steps counter, output path assignment,
checkpoint capability, and the system reference exposed by the system
property). -/
structure Sim where
  restart : Bool
  output_path : Option String
  backend_output_path : Option String
  max_steps : Int
  steps : Int
  initial_steps : Int
  backend_steps : Int
  backend_has_checkpoint : Bool
  system : Option PySystem
  wall_now : ℚ
  start_time : ℚ
  checkpoint_sched : Sched
  callback : List CbId
  params : CbId → Option Params
  events : List Ev

/-- Behaviour carried by an observer identity: whether it has a clear hook,
whether it is a Speedometer instance, and the effect of invoking it at a
given step count. -/
structure ObsSpec where
  hasClear : Bool
  isSpeedometer : Bool
  act : Int → ObsAct

/-- The external collaborators of a run: the behaviour of each observer
identity and the backend run_pre hook (restart flag and current backend step
count to resulting backend step count). -/
structure Env where
  obs : CbId → ObsSpec
  backendPre : Bool → Int → Int

/-- Append one event to the trace. -/
def Sim.logEv (s : Sim) (e : Ev) : Sim :=
  { s with events := s.events ++ [e] }

/- ---------------------------------------------------------------------
Timing helpers (source lines 190-207).
--------------------------------------------------------------------- -/

/-- elapsed_wall_time: time.time() minus self.start_time. -/
def elapsed_wall_time (s : Sim) : ℚ :=
  s.wall_now - s.start_time

/-- wall_time_per_step: elapsed divided by (steps - initial_steps); a Python
ZeroDivisionError when the two step counters coincide. -/
def wall_time_per_step (s : Sim) : Except PyErr ℚ :=
  if s.steps = s.initial_steps then
    Except.error PyErr.zeroDivisionError
  else
    Except.ok (elapsed_wall_time s / ((s.steps - s.initial_steps : Int) : ℚ))

/-- Evaluation of len(self.system.particle): an AttributeError when no system
is attached (the attribute access on None), else the particle count. -/
def particle_len (s : Sim) : Except PyErr Nat :=
  match s.system with
  | none => Except.error PyErr.attributeError
  | some sys => Except.ok sys.particle.length

/-- wall_time_per_step_particle: the try block evaluates wall_time_per_step
first, then divides by the particle count; only AttributeError is caught and
converted into 0. -/
def wall_time_per_step_particle (s : Sim) : Except PyErr ℚ :=
  let body : Except PyErr ℚ :=
    match wall_time_per_step s with
    | Except.error e => Except.error e
    | Except.ok w =>
      match particle_len s with
      | Except.error e => Except.error e
      | Except.ok n =>
        if n = 0 then Except.error PyErr.zeroDivisionError
        else Except.ok (w / (n : ℚ))
  match body with
  | Except.error PyErr.attributeError => Except.ok 0
  | r => r

/- ---------------------------------------------------------------------
Callback registry (source lines 112-174).
--------------------------------------------------------------------- -/

/-- Simulation.add: a registered identity is first removed, the params entry
is overwritten, and the identity is appended at the end when it is a targeter
and inserted at position 0 otherwise.  The integer-scheduler shorthand of the
source is resolved by the callers of this model, which always pass a Params
record. -/
def Sim.add (s : Sim) (c : CbId) (p : Params) : Sim :=
  let cbs := if s.callback.contains c then s.callback.erase c else s.callback
  let ps := fun x => if x = c then some p else s.params x
  if isTargeter c then
    { s with callback := cbs ++ [c], params := ps }
  else
    { s with callback := c :: cbs, params := ps }

/-- Simulation.remove: drop the registration and its params entry; a logged
no-op when the identity is absent. -/
def Sim.remove (s : Sim) (c : CbId) : Sim :=
  if s.callback.contains c then
    { s with callback := s.callback.erase c,
             params := fun x => if x = c then none else s.params x }
  else s

/-- The sublist of registered targeters, in notification order
(Simulation._targeters). -/
def Sim.targeters (s : Sim) : List CbId :=
  s.callback.filter isTargeter

/-- The sublist of registered non-targeters, in notification order
(Simulation._non_targeters). -/
def Sim.nonTargeters (s : Sim) : List CbId :=
  s.callback.filter (fun c => !isTargeter c)

/-- The sublist of registered Speedometer instances, in notification order
(Simulation._speedometers). -/
def Sim.speedometers (env : Env) (s : Sim) : List CbId :=
  s.callback.filter (fun c => (env.obs c).isSpeedometer)

/-- A base Simulation state as produced by the constructor with default
arguments: empty registry, zeroed counters, no system attached. -/
def baseSim : Sim where
  restart := false
  output_path := none
  backend_output_path := none
  max_steps := 0
  steps := 0
  initial_steps := 0
  backend_steps := 0
  backend_has_checkpoint := true
  system := none
  wall_now := 0
  start_time := 0
  checkpoint_sched := fun _ => 0
  callback := []
  params := fun _ => none
  events := []

/- ---------------------------------------------------------------------
Registry operation sequences, for the notification-order invariant.
--------------------------------------------------------------------- -/

/-- One registry operation: Simulation.add or Simulation.remove. -/
inductive Op where
  | addOp (c : CbId) (p : Params)
  | remOp (c : CbId)

/-- Apply one registry operation to a Simulation state. -/
def applyOp (s : Sim) : Op → Sim
  | Op.addOp c p => s.add c p
  | Op.remOp c => s.remove c

/-- Apply a sequence of registry operations to a fresh Simulation. -/
def runOps (ops : List Op) : Sim :=
  ops.foldl applyOp baseSim

/-- Abstract registration order: a re-add moves the identity to the end
(its position is re-evaluated), a removal drops it. -/
def regStep (r : List CbId) : Op → List CbId
  | Op.addOp c _ => r.erase c ++ [c]
  | Op.remOp c => r.erase c

/-- The registration (insertion) order produced by an operation sequence:
the surviving identities, ordered by their most recent add. -/
def regOrder (ops : List Op) : List CbId :=
  ops.foldl regStep []

/-- Normal form of the notification order in terms of the registration
order: non-targeters in reverse registration order, then targeters in
registration order. -/
def regNF (r : List CbId) : List CbId :=
  (r.filter (fun c => !isTargeter c)).reverse ++ r.filter isTargeter

lemma mem_regNF {c : CbId} {r : List CbId} : c ∈ regNF r ↔ c ∈ r := by
  simp only [regNF, List.mem_append, List.mem_reverse, List.mem_filter]
  cases h : isTargeter c <;> simp [h]

lemma regNF_nodup {r : List CbId} (h : r.Nodup) : (regNF r).Nodup := by
  refine List.Nodup.append (List.nodup_reverse.mpr (h.filter _)) (h.filter _) ?_
  intro a ha hb
  rw [List.mem_reverse, List.mem_filter] at ha
  rw [List.mem_filter] at hb
  rw [hb.2] at ha
  exact absurd ha.2 (by decide)

lemma filter_swap (p q : CbId → Bool) (l : List CbId) :
    (l.filter q).filter p = (l.filter p).filter q := by
  induction l with
  | nil => rfl
  | cons a l ih =>
    by_cases hp : p a = true <;> by_cases hq : q a = true <;>
      simp [List.filter, hp, hq, ih]

lemma regNF_erase {r : List CbId} (h : r.Nodup) (c : CbId) :
    (regNF r).erase c = regNF (r.erase c) := by
  rw [(regNF_nodup h).erase_eq_filter, h.erase_eq_filter]
  simp only [regNF, List.filter_append, List.filter_reverse]
  rw [filter_swap, filter_swap (fun x => x != c) isTargeter]

lemma regNF_append_tgt {c : CbId} (r : List CbId) (hc : isTargeter c = true) :
    regNF (r ++ [c]) = regNF r ++ [c] := by
  simp [regNF, List.filter_append, hc, List.append_assoc]

lemma regNF_append_ord {c : CbId} (r : List CbId) (hc : isTargeter c = false) :
    regNF (r ++ [c]) = c :: regNF r := by
  simp [regNF, List.filter_append, hc]

lemma erase_append_nodup {r : List CbId} (h : r.Nodup) (c : CbId) :
    (r.erase c ++ [c]).Nodup := by
  refine List.Nodup.append (h.erase c) (List.nodup_singleton c) ?_
  intro a ha hb
  rw [List.mem_singleton] at hb
  subst hb
  exact h.not_mem_erase ha

/-- The shape of the notification order after any operation sequence,
relative to the abstract registration order. -/
lemma runOps_callback_aux :
    ∀ (ops : List Op) (s : Sim) (r : List CbId), r.Nodup →
      s.callback = regNF r →
      (ops.foldl applyOp s).callback = regNF (ops.foldl regStep r) := by
  intro ops
  induction ops with
  | nil => intro s r _ hs; simpa using hs
  | cons op rest ih =>
    intro s r hnd hs
    cases op with
    | addOp c p =>
      refine ih (s.add c p) (r.erase c ++ [c]) (erase_append_nodup hnd c) ?_
      have hcb : (s.add c p).callback =
          (if isTargeter c then s.callback.erase c ++ [c]
           else c :: s.callback.erase c) := by
        by_cases hm : c ∈ s.callback
        · simp [Sim.add, hm]
          by_cases ht : isTargeter c <;> simp [ht]
        · simp [Sim.add, hm, List.erase_of_not_mem hm]
          by_cases ht : isTargeter c <;> simp [ht]
      rw [hcb, hs, regNF_erase hnd]
      by_cases ht : isTargeter c
      · rw [if_pos ht, regNF_append_tgt _ ht]
      · rw [if_neg ht, regNF_append_ord _ (by simpa using ht)]
    | remOp c =>
      refine ih (s.remove c) (r.erase c) (hnd.erase c) ?_
      have hcb : (s.remove c).callback = s.callback.erase c := by
        by_cases hm : c ∈ s.callback
        · simp [Sim.remove, hm]
        · simp [Sim.remove, hm, List.erase_of_not_mem hm]
      rw [hcb, hs, regNF_erase hnd]

/-- A parameter record used in concrete counterexamples and witnesses. -/
def pDummy : Params where
  sched := fun _ => 0
  args := []

/-- Claim C1, counterexample.  The claim states that within each role the
notification order preserves insertion order.  Simulation.add inserts
non-targeters at position 0, so two ordinary observers registered in the
order writer_a, writer_b end up in the notification order writer_b,
writer_a: the claimed equality fails on that two-add sequence. -/
theorem claim_C1_counterexample :
    ¬ (∀ ops : List Op,
        (runOps ops).callback =
          (regOrder ops).filter (fun c => !isTargeter c) ++
            (regOrder ops).filter isTargeter) := by
  intro h
  have hx := h [Op.addOp ⟨0, "writer_a"⟩ pDummy, Op.addOp ⟨1, "writer_b"⟩ pDummy]
  revert hx
  decide

/-- Claim C1, amended.  For every sequence of add and remove operations on
the callback registry, the notification order places every ordinary observer
before every targeter; the targeters appear in their insertion order, and
the ordinary observers appear in reverse insertion order (most recently
registered first). -/
theorem claim_C1_amended_order (ops : List Op) :
    (runOps ops).callback =
      ((regOrder ops).filter (fun c => !isTargeter c)).reverse ++
        (regOrder ops).filter isTargeter :=
  runOps_callback_aux ops baseSim [] List.nodup_nil rfl

/-- Claim C7.  Re-registering an already registered identity removes the
prior registration first: afterwards the identity occurs exactly once in the
notification order, its stored params entry is the one of the latest add,
and its position is recomputed from its role (appended at the end for a
targeter, inserted at the front otherwise). -/
theorem claim_C7_reregistration (s : Sim) (c : CbId) (p : Params)
    (hmem : c ∈ s.callback) (hnd : s.callback.Nodup) :
    (s.add c p).callback.count c = 1 ∧
    (s.add c p).params c = some p ∧
    (s.add c p).callback =
      (if isTargeter c then s.callback.erase c ++ [c]
       else c :: s.callback.erase c) := by
  have hcb : (s.add c p).callback =
      (if isTargeter c then s.callback.erase c ++ [c]
       else c :: s.callback.erase c) := by
    by_cases ht : isTargeter c <;> simp [Sim.add, hmem, ht]
  have hps : (s.add c p).params c = some p := by
    by_cases ht : isTargeter c <;> simp [Sim.add, ht]
  have hcount0 : (s.callback.erase c).count c = 0 :=
    List.count_eq_zero.mpr (hnd.not_mem_erase)
  refine ⟨?_, hps, hcb⟩
  rw [hcb]
  by_cases ht : isTargeter c
  · rw [if_pos ht, List.count_append, hcount0]
    simp
  · rw [if_neg ht, List.count_cons_self, hcount0]

/-- A concrete registry holding one ordinary observer and one targeter. -/
def simC7 : Sim :=
  { baseSim with
    callback := [⟨0, "writer_a"⟩, ⟨1, "target_msd"⟩],
    params := fun _ => some pDummy }

/-- Parameters carried by the re-registration in the C7 witness. -/
def pC7 : Params where
  sched := fun st => st + 1
  args := [4]

theorem claim_C7_reregistration_witness :
    (simC7.add ⟨0, "writer_a"⟩ pC7).callback.count ⟨0, "writer_a"⟩ = 1 ∧
    (simC7.add ⟨0, "writer_a"⟩ pC7).params ⟨0, "writer_a"⟩ = some pC7 ∧
    (simC7.add ⟨0, "writer_a"⟩ pC7).callback =
      (if isTargeter ⟨0, "writer_a"⟩ then
        simC7.callback.erase ⟨0, "writer_a"⟩ ++ [⟨0, "writer_a"⟩]
       else ⟨0, "writer_a"⟩ :: simC7.callback.erase ⟨0, "writer_a"⟩) :=
  claim_C7_reregistration simC7 ⟨0, "writer_a"⟩ pC7 (by decide) (by decide)

/- ---------------------------------------------------------------------
Claim C3: wall_time_per_step_particle with no system attached.
--------------------------------------------------------------------- -/

/-- A state with equal step counters and no physical system attached. -/
def simC3 : Sim :=
  { baseSim with steps := 5, initial_steps := 5, wall_now := 7 }

/-- Claim C3, counterexample.  With no system attached but the current step
counter equal to the initial one, wall_time_per_step raises
ZeroDivisionError before the particle access is reached; the except clause
only catches AttributeError, so the call does not return 0 for every value
of the step counters. -/
theorem claim_C3_counterexample :
    simC3.system = none ∧
    wall_time_per_step_particle simC3 = Except.error PyErr.zeroDivisionError ∧
    wall_time_per_step_particle simC3 ≠ Except.ok 0 := by
  refine ⟨rfl, rfl, fun h => ?_⟩
  rw [show wall_time_per_step_particle simC3 =
      Except.error PyErr.zeroDivisionError from rfl] at h
  exact Except.noConfusion h

/-- Claim C3, amended.  When no physical system is attached and the current
step counter differs from the initial one, wall_time_per_step_particle
returns 0 and raises no error: the AttributeError from the missing system is
caught and converted. -/
theorem claim_C3_amended_no_system (s : Sim)
    (hsys : s.system = none) (hst : s.steps ≠ s.initial_steps) :
    wall_time_per_step_particle s = Except.ok 0 := by
  unfold wall_time_per_step_particle wall_time_per_step particle_len
  rw [if_neg hst, hsys]

/-- A state with advanced steps and no system, for the C3 witness. -/
def simC3w : Sim :=
  { baseSim with steps := 3, initial_steps := 0, wall_now := 2 }

theorem claim_C3_amended_no_system_witness :
    wall_time_per_step_particle simC3w = Except.ok 0 :=
  claim_C3_amended_no_system simC3w rfl (by decide)

/- ---------------------------------------------------------------------
Notification, pre-run handling and the main loop (source lines 157-314).
--------------------------------------------------------------------- -/

/-- Simulation.notify: invoke each observer in the order given; an exception
raised by an observer aborts the remaining notifications and propagates. -/
def notifyList (env : Env) : Sim → List CbId → Sim × Option Exc
  | s, [] => (s, none)
  | s, c :: rest =>
    let s1 := s.logEv (Ev.notified c)
    match (env.obs c).act s1.steps with
    | ObsAct.ok => notifyList env s1 rest
    | ObsAct.raised e => (s1, some e)

/-- Modelled from the spec: the Scheduler class of
atooms.simulation.observers is not part of the source tree.  The spec says
an integer argument is shorthand for a fixed-interval scheduler notifying
every that-many steps; no claim below depends on the exact values this
produces. -/
def fixedScheduler (interval : Int) : Sched :=
  fun steps => if 0 < interval then interval * (steps / interval + 1) else steps

/-- The identity of the step-count targeter registered by Simulation.run
(the target_steps function; its name carries the target substring). -/
def targeterStepsId : CbId := ⟨1000, "target_steps"⟩

/-- Simulation.run_pre: record the start time; when an output path is
configured, assign it to the backend and, unless restarting, invoke the
optional clear hook of every registered observer; then delegate to the
backend pre-run hook and, when restarting, adopt the backend step count. -/
def run_pre (env : Env) (s : Sim) : Sim :=
  let s1 := { s with start_time := s.wall_now }
  let s2 :=
    match s1.output_path with
    | none => s1
    | some p =>
      let sa := { s1 with backend_output_path := some p }
      if sa.restart then sa
      else
        sa.callback.foldl
          (fun acc c =>
            if (env.obs c).hasClear then acc.logEv (Ev.cleared c) else acc) sa
  let s3 := { s2 with backend_steps := env.backendPre s2.restart s2.backend_steps }
  if s3.restart then { s3 with steps := s3.backend_steps } else s3

/-- Simulation.run_until: advance the backend to the given absolute step and
overwrite both step counters with it. -/
def run_until (s : Sim) (n : Int) : Sim :=
  { s with backend_steps := n, steps := n }

/-- Simulation.write_checkpoint: delegate to the backend, tolerating a
missing implementation. -/
def write_checkpoint (s : Sim) : Sim :=
  if s.backend_has_checkpoint then s.logEv Ev.checkpoint else s

/-- The opening lines of Simulation.run: unless resuming with a nonzero step
count, adopt the requested number of steps as the new target and zero both
step counters. -/
def runReset (arg : Option Int) (s : Sim) : Sim :=
  if !s.restart || s.steps == 0 then
    let s1 :=
      match arg with
      | some n => { s with max_steps := n }
      | none => s
    { s1 with steps := 0, backend_steps := 0 }
  else s

/-- The initial notification block of Simulation.run: notify targeters
first; then, at step zero, notify all non-targeters, otherwise only the
speedometers. -/
def initialNotify (env : Env) (s : Sim) : Sim × Option Exc :=
  match notifyList env s s.targeters with
  | (s1, some e) => (s1, some e)
  | (s1, none) =>
    if s1.steps = 0 then notifyList env s1 s1.nonTargeters
    else notifyList env s1 (Sim.speedometers env s1)

/-- The checkpoint trigger computed at the top of a loop iteration. -/
def nextCkpt (s : Sim) : Int :=
  s.checkpoint_sched s.steps

/-- The scheduler results for the registered observers, in registry order;
a missing params entry is a lookup error. -/
def allSteps (s : Sim) : Option (List Int) :=
  s.callback.mapM (fun c => (s.params c).map (fun p => p.sched s.steps))

/-- The step the loop advances to: the minimum of the observer triggers and
the checkpoint trigger (the Python min over the concatenated list). -/
def nextStep (s : Sim) (all : List Int) : Int :=
  all.foldl min (nextCkpt s)

/-- The observers whose scheduler result equals the step advanced to: the
batch notified in one loop iteration. -/
def dueObservers (s : Sim) (all : List Int) (n : Int) : List CbId :=
  (s.callback.zip all).filterMap (fun pr => if pr.2 = n then some pr.1 else none)

/-- One iteration of the while loop of Simulation.run: evaluate every
scheduler and the checkpoint scheduler, advance to the minimum, notify the
batch of observers due at that step, and checkpoint when the step reached
equals the checkpoint trigger. -/
def loopIter (env : Env) (s : Sim) : Sim × Option Exc :=
  match allSteps s with
  | none => (s, some Exc.otherError)
  | some all =>
    let next_checkpoint := nextCkpt s
    let next_step := nextStep s all
    let s1 := run_until s next_step
    let next_observers := dueObservers s1 all next_step
    match notifyList env s1 next_observers with
    | (s2, some e) => (s2, some e)
    | (s2, none) =>
      if s2.steps = next_checkpoint then (write_checkpoint s2, none)
      else (s2, none)

/-- The while loop, driven by fuel: the source loop runs until an exception
escapes, so exhausting the fuel is a model artifact reported as none. -/
def runLoop (env : Env) : Nat → Sim → Sim × Option Exc
  | 0, s => (s, none)
  | fuel + 1, s =>
    match loopIter env s with
    | (s1, some e) => (s1, some e)
    | (s1, none) => runLoop env fuel s1

/-- The body of the try block of Simulation.run: the initial notifications
followed by the loop. -/
def tryBlock (env : Env) (fuel : Nat) (s : Sim) : Sim × Option Exc :=
  match initialNotify env s with
  | (s1, some e) => (s1, some e)
  | (s1, none) => runLoop env fuel s1

/-- How Simulation.run terminates, as seen by its caller. -/
inductive RunOutcome where
  | ended
  | interrupted
  | failed
  | fuelOut
deriving DecidableEq, Repr

/-- The except and finally clauses of Simulation.run: the end-of-run signal
writes a final checkpoint and attempts the final report, swallowing its
errors; a keyboard interrupt is passed over; any other exception logs the
failure marker and is re-raised; the completion marker is logged in every
case. -/
def runHandle (s : Sim) (e : Option Exc) : Sim × RunOutcome :=
  match e with
  | some Exc.simulationEnd =>
    let s1 := write_checkpoint s
    let s2 :=
      match wall_time_per_step_particle s1 with
      | Except.ok _ => s1.logEv Ev.reportEnd
      | Except.error _ => s1
    (s2.logEv Ev.goodbye, RunOutcome.ended)
  | some Exc.keyboardInterrupt => (s.logEv Ev.goodbye, RunOutcome.interrupted)
  | some Exc.otherError =>
    ((s.logEv Ev.simFailed).logEv Ev.goodbye, RunOutcome.failed)
  | none => (s.logEv Ev.goodbye, RunOutcome.fuelOut)

/-- The prelude of Simulation.run before the try block: the reset branch,
the registration of the step-count targeter, run_pre, and the snapshot of
the initial step count.  Log-only reporting calls and the speedometer
reinitialisation (observer-internal state) are not modelled. -/
def runSetup (env : Env) (arg : Option Int) (s : Sim) : Sim :=
  let s1 := runReset arg s
  let s2 := s1.add targeterStepsId ⟨fixedScheduler s1.max_steps, [s1.max_steps]⟩
  let s3 := run_pre env s2
  { s3 with initial_steps := s3.steps }

/-- Simulation.run assembled from its phases. -/
def run (env : Env) (fuel : Nat) (arg : Option Int) (s : Sim) : Sim × RunOutcome :=
  let s1 := runSetup env arg s
  let (s2, e) := tryBlock env fuel s1
  runHandle s2 e

/- ---------------------------------------------------------------------
Trace-shape lemmas.
--------------------------------------------------------------------- -/

lemma notifyList_ok (env : Env) :
    ∀ (l : List CbId) (s : Sim),
      (∀ c ∈ l, (env.obs c).act s.steps = ObsAct.ok) →
      notifyList env s l =
        ({ s with events := s.events ++ l.map Ev.notified }, none) := by
  intro l
  induction l with
  | nil => intro s _; simp [notifyList]
  | cons c rest ih =>
    intro s h
    have hc : (env.obs c).act (s.logEv (Ev.notified c)).steps = ObsAct.ok :=
      h c (by simp)
    have hrest : ∀ d ∈ rest,
        (env.obs d).act (s.logEv (Ev.notified c)).steps = ObsAct.ok := by
      intro d hd
      exact h d (by simp [hd])
    simp only [notifyList, hc]
    rw [ih _ hrest]
    simp [Sim.logEv]

lemma notifyList_shape (env : Env) :
    ∀ (l : List CbId) (s : Sim), ∃ E,
      (notifyList env s l).1 = { s with events := E } := by
  intro l
  induction l with
  | nil => intro s; exact ⟨s.events, rfl⟩
  | cons c rest ih =>
    intro s
    cases hact : (env.obs c).act (s.logEv (Ev.notified c)).steps with
    | ok =>
      obtain ⟨E, hE⟩ := ih (s.logEv (Ev.notified c))
      refine ⟨E, ?_⟩
      simp only [notifyList, hact]
      rw [hE]
      rfl
    | raised e =>
      refine ⟨s.events ++ [Ev.notified c], ?_⟩
      simp only [notifyList, hact]
      rfl

lemma clearFold_shape (env : Env) :
    ∀ (l : List CbId) (s : Sim),
      l.foldl (fun acc c =>
          if (env.obs c).hasClear then acc.logEv (Ev.cleared c) else acc) s =
        { s with events := s.events ++
            (l.filter (fun c => (env.obs c).hasClear)).map Ev.cleared } := by
  intro l
  induction l with
  | nil => intro s; simp
  | cons c rest ih =>
    intro s
    rw [List.foldl_cons]
    cases hc : (env.obs c).hasClear
    · rw [if_neg (by decide), ih]
      simp [hc]
    · rw [if_pos rfl, ih]
      simp [Sim.logEv, hc]

/-- Full characterization of run_pre as an update of the state fields. -/
lemma run_pre_eq (env : Env) (s : Sim) :
    run_pre env s =
      { s with
        start_time := s.wall_now,
        backend_output_path :=
          (match s.output_path with
           | some p => some p
           | none => s.backend_output_path),
        events := s.events ++
          (if s.output_path.isSome && !s.restart then
            (s.callback.filter (fun c => (env.obs c).hasClear)).map Ev.cleared
           else []),
        backend_steps := env.backendPre s.restart s.backend_steps,
        steps :=
          if s.restart then env.backendPre s.restart s.backend_steps
          else s.steps } := by
  unfold run_pre
  cases hop : s.output_path with
  | none =>
    cases hr : s.restart <;> simp [hop, hr]
  | some p =>
    cases hr : s.restart
    · simp only [hop, hr]
      rw [clearFold_shape]
      simp
    · simp [hop, hr]

/- ---------------------------------------------------------------------
Claims C2, C10, C8: reset semantics, output-path gating, initial block.
--------------------------------------------------------------------- -/

/-- An environment in which every observer has a clear hook, never raises,
and the backend pre-run hook keeps the step count. -/
def envAllClear : Env where
  obs := fun _ => ⟨true, false, fun _ => ObsAct.ok⟩
  backendPre := fun _ b => b

/-- A resuming state at step zero with an output path and one registered
observer carrying a clear hook. -/
def simC2 : Sim :=
  { baseSim with
    restart := true,
    output_path := some "out",
    callback := [⟨0, "writer_a"⟩],
    params := fun _ => some pDummy }

/-- Claim C2, counterexample.  With restart true and the current step count
zero, the reset branch of run is taken (restart false OR step zero), yet
run_pre skips every clear hook because the restart flag alone gates them: on
this input the run prelude emits no event at all although a registered
observer has a clear hook, contradicting the claim that every reset hook is
invoked whenever the reset branch is taken. -/
theorem claim_C2_counterexample :
    simC2.restart = true ∧ simC2.steps = 0 ∧
    (envAllClear.obs ⟨0, "writer_a"⟩).hasClear = true ∧
    simC2.callback = [⟨0, "writer_a"⟩] ∧
    (runSetup envAllClear none simC2).events = [] := by
  refine ⟨rfl, rfl, rfl, rfl, ?_⟩
  rfl

/-- Claim C2, amended.  The step counters are zeroed exactly when restart is
false or the current step count is zero; the clear hooks are invoked exactly
when an output path is configured and restart is false (in registry order,
one invocation per observer exposing the hook); and after run_pre the engine
step count equals the backend-reported step count when restarting, and is
unchanged otherwise. -/
theorem claim_C2_amended_reset (env : Env) (arg : Option Int) (s : Sim) :
    (runReset arg s).steps = (if !s.restart || s.steps == 0 then 0 else s.steps) ∧
    (runReset arg s).backend_steps =
      (if !s.restart || s.steps == 0 then 0 else s.backend_steps) ∧
    (run_pre env s).events = s.events ++
      (if s.output_path.isSome && !s.restart then
        (s.callback.filter (fun c => (env.obs c).hasClear)).map Ev.cleared
       else []) ∧
    (run_pre env s).steps =
      (if s.restart then (run_pre env s).backend_steps else s.steps) := by
  refine ⟨?_, ?_, ?_, ?_⟩
  · unfold runReset
    by_cases h : (!s.restart || s.steps == 0) = true
    · cases arg <;> simp [h]
    · cases arg <;> simp [h]
  · unfold runReset
    by_cases h : (!s.restart || s.steps == 0) = true
    · cases arg <;> simp [h]
    · cases arg <;> simp [h]
  · rw [run_pre_eq]
  · rw [run_pre_eq]

/-- Claim C10.  With no output path configured, run_pre appends no event (in
particular it invokes no clear hook, whatever the restart flag) and leaves
the backend output path unassigned. -/
theorem claim_C10_no_output_path (env : Env) (s : Sim)
    (h : s.output_path = none) :
    (run_pre env s).events = s.events ∧
    (run_pre env s).backend_output_path = s.backend_output_path := by
  rw [run_pre_eq]
  simp [h]

theorem claim_C10_no_output_path_witness :
    (run_pre envAllClear baseSim).events = baseSim.events ∧
    (run_pre envAllClear baseSim).backend_output_path =
      baseSim.backend_output_path :=
  claim_C10_no_output_path envAllClear baseSim rfl

/-- Claim C8.  When no observer raises, the initial block of run notifies
the targeters first, then every non-targeter if the current step count is
zero, and only the speedometers otherwise. -/
theorem claim_C8_initial_notification (env : Env) (s : Sim)
    (hok : ∀ c ∈ s.callback, (env.obs c).act s.steps = ObsAct.ok) :
    initialNotify env s =
      ({ s with events := s.events ++
          (s.targeters ++
            (if s.steps = 0 then s.nonTargeters
             else Sim.speedometers env s)).map Ev.notified }, none) := by
  have ht : ∀ c ∈ s.targeters, (env.obs c).act s.steps = ObsAct.ok := by
    intro c hc
    exact hok c (List.mem_of_mem_filter hc)
  have key : ∀ (E : List Ev) (l : List CbId),
      (∀ c ∈ l, (env.obs c).act s.steps = ObsAct.ok) →
      notifyList env { s with events := E } l =
        ({ s with events := E ++ l.map Ev.notified }, none) := by
    intro E l hl
    have h := notifyList_ok env l { s with events := E }
      (by intro c hc; exact hl c hc)
    simpa using h
  unfold initialNotify
  rw [notifyList_ok env s.targeters s ht]
  have hsteps : (({ s with
      events := s.events ++ s.targeters.map Ev.notified } : Sim)).steps
      = s.steps := rfl
  have hnt : Sim.nonTargeters { s with
      events := s.events ++ s.targeters.map Ev.notified } = s.nonTargeters := rfl
  have hsp : Sim.speedometers env { s with
      events := s.events ++ s.targeters.map Ev.notified } =
      Sim.speedometers env s := rfl
  simp only [hsteps, hnt, hsp]
  by_cases h0 : s.steps = 0
  · rw [if_pos h0, if_pos h0,
      key (s.events ++ s.targeters.map Ev.notified) s.nonTargeters
        (fun c hc => hok c (List.mem_of_mem_filter hc))]
    simp
  · rw [if_neg h0, if_neg h0,
      key (s.events ++ s.targeters.map Ev.notified) (Sim.speedometers env s)
        (fun c hc => hok c (List.mem_of_mem_filter hc))]
    simp

/-- A fresh state with one writer and one targeter, for the C8 witness. -/
def simC8 : Sim :=
  { baseSim with
    callback := [⟨0, "writer_a"⟩, ⟨1, "target_msd"⟩],
    params := fun _ => some pDummy }

theorem claim_C8_initial_notification_witness :
    (initialNotify envAllClear simC8).1.events =
      [Ev.notified ⟨1, "target_msd"⟩, Ev.notified ⟨0, "writer_a"⟩] ∧
    (initialNotify envAllClear simC8).2 = none := by
  have h := claim_C8_initial_notification envAllClear simC8 (by decide)
  rw [h]
  constructor
  · rfl
  · rfl

/- ---------------------------------------------------------------------
Claim C5: resolution of the three termination conditions.
--------------------------------------------------------------------- -/

lemma wtpsp_logEv (s : Sim) (e : Ev) :
    wall_time_per_step_particle (s.logEv e) =
      wall_time_per_step_particle s := rfl

/-- The end-of-run branch of the except clause, as one equation. -/
lemma runHandle_end_eq (s : Sim) :
    runHandle s (some Exc.simulationEnd) =
      ({ s with events := s.events ++
          ((if s.backend_has_checkpoint then [Ev.checkpoint] else []) ++
            (match wall_time_per_step_particle s with
             | Except.ok _ => [Ev.reportEnd]
             | Except.error _ => []) ++ [Ev.goodbye]) },
        RunOutcome.ended) := by
  have hwc : wall_time_per_step_particle (write_checkpoint s) =
      wall_time_per_step_particle s := by
    unfold write_checkpoint
    cases hb : s.backend_has_checkpoint
    · rfl
    · rfl
  simp only [runHandle]
  rw [hwc]
  cases hq : wall_time_per_step_particle s <;>
    unfold write_checkpoint <;>
      cases hb : s.backend_has_checkpoint <;>
        simp [hb, Sim.logEv]

/-- Claim C5.  The end-of-run signal yields a final checkpoint (when the
backend supports one), then a final report exactly when the report
computation raises no error, then the completion marker, and run reports a
normal end; a keyboard interrupt appends only the completion marker and is
not propagated; any other exception appends the failure marker and the
completion marker and is re-raised (outcome failed). -/
theorem claim_C5_termination_handling (s : Sim) :
    runHandle s (some Exc.simulationEnd) =
      ({ s with events := s.events ++
          ((if s.backend_has_checkpoint then [Ev.checkpoint] else []) ++
            (match wall_time_per_step_particle s with
             | Except.ok _ => [Ev.reportEnd]
             | Except.error _ => []) ++ [Ev.goodbye]) },
        RunOutcome.ended) ∧
    runHandle s (some Exc.keyboardInterrupt) =
      (s.logEv Ev.goodbye, RunOutcome.interrupted) ∧
    runHandle s (some Exc.otherError) =
      ((s.logEv Ev.simFailed).logEv Ev.goodbye, RunOutcome.failed) :=
  ⟨runHandle_end_eq s, rfl, rfl⟩

/- ---------------------------------------------------------------------
Frame lemmas: which state fields each phase can touch.
--------------------------------------------------------------------- -/

lemma loopIter_shape (env : Env) (s : Sim) :
    ∃ E a b, (loopIter env s).1 =
      { s with events := E, steps := a, backend_steps := b } := by
  cases hall : allSteps s with
  | none => exact ⟨s.events, s.steps, s.backend_steps, by simp [loopIter, hall]⟩
  | some all =>
    obtain ⟨E, hE⟩ := notifyList_shape env
      (dueObservers (run_until s (nextStep s all)) all (nextStep s all))
      (run_until s (nextStep s all))
    cases hnl : notifyList env (run_until s (nextStep s all))
        (dueObservers (run_until s (nextStep s all)) all (nextStep s all)) with
    | mk s2 oe =>
      simp only [hnl] at hE
      cases oe with
      | some e =>
        refine ⟨E, nextStep s all, nextStep s all, ?_⟩
        simp only [loopIter, hall, hnl]
        exact hE
      | none =>
        by_cases hck : s2.steps = nextCkpt s
        · refine ⟨(if s2.backend_has_checkpoint then E ++ [Ev.checkpoint] else E),
            nextStep s all, nextStep s all, ?_⟩
          simp only [loopIter, hall, hnl, hck, if_pos]
          unfold write_checkpoint
          cases hb : s2.backend_has_checkpoint
          · simp only [hb, Bool.false_eq_true, if_neg, not_false_eq_true]
            exact hE
          · simp only [hb, if_pos]
            rw [hE]
            rfl
        · refine ⟨E, nextStep s all, nextStep s all, ?_⟩
          simp only [loopIter, hall, hnl, hck, if_neg, not_false_eq_true]
          exact hE

lemma runLoop_shape (env : Env) :
    ∀ (fuel : Nat) (s : Sim), ∃ E a b, (runLoop env fuel s).1 =
      { s with events := E, steps := a, backend_steps := b } := by
  intro fuel
  induction fuel with
  | zero => intro s; exact ⟨s.events, s.steps, s.backend_steps, rfl⟩
  | succ n ih =>
    intro s
    obtain ⟨E, a, b, hiter⟩ := loopIter_shape env s
    cases hli : loopIter env s with
    | mk s1 oe =>
      simp only [hli] at hiter
      cases oe with
      | some e => exact ⟨E, a, b, by simp only [runLoop, hli]; exact hiter⟩
      | none =>
        obtain ⟨E2, a2, b2, hloop⟩ := ih s1
        refine ⟨E2, a2, b2, ?_⟩
        simp only [runLoop, hli]
        rw [hloop, hiter]

lemma initialNotify_shape (env : Env) (s : Sim) :
    ∃ E, (initialNotify env s).1 = { s with events := E } := by
  obtain ⟨E1, h1⟩ := notifyList_shape env s.targeters s
  cases hn1 : notifyList env s s.targeters with
  | mk s1 oe =>
    simp only [hn1] at h1
    cases oe with
    | some e => exact ⟨E1, by simp only [initialNotify, hn1]; exact h1⟩
    | none =>
      by_cases h0 : s1.steps = 0
      · obtain ⟨E2, h2⟩ := notifyList_shape env s1.nonTargeters s1
        refine ⟨E2, ?_⟩
        simp only [initialNotify, hn1, h0, if_pos]
        rw [h2, h1]
      · obtain ⟨E2, h2⟩ := notifyList_shape env (Sim.speedometers env s1) s1
        refine ⟨E2, ?_⟩
        simp only [initialNotify, hn1, h0, if_neg, not_false_eq_true]
        rw [h2, h1]

lemma tryBlock_shape (env : Env) (fuel : Nat) (s : Sim) :
    ∃ E a b, (tryBlock env fuel s).1 =
      { s with events := E, steps := a, backend_steps := b } := by
  obtain ⟨E1, h1⟩ := initialNotify_shape env s
  cases hn : initialNotify env s with
  | mk s1 oe =>
    simp only [hn] at h1
    cases oe with
    | some e =>
      exact ⟨E1, s.steps, s.backend_steps,
        by simp only [tryBlock, hn]; exact h1⟩
    | none =>
      obtain ⟨E2, a, b, h2⟩ := runLoop_shape env fuel s1
      refine ⟨E2, a, b, ?_⟩
      simp only [tryBlock, hn]
      rw [h2, h1]

lemma runHandle_shape (s : Sim) (e : Option Exc) :
    ∃ E, (runHandle s e).1 = { s with events := E } := by
  cases e with
  | none => exact ⟨s.events ++ [Ev.goodbye], rfl⟩
  | some exc =>
    cases exc with
    | simulationEnd =>
      exact ⟨_, by rw [runHandle_end_eq]⟩
    | keyboardInterrupt => exact ⟨s.events ++ [Ev.goodbye], rfl⟩
    | otherError => exact ⟨s.events ++ [Ev.simFailed] ++ [Ev.goodbye], rfl⟩

lemma run_eq (env : Env) (fuel : Nat) (arg : Option Int) (s : Sim) :
    run env fuel arg s =
      runHandle (tryBlock env fuel (runSetup env arg s)).1
        (tryBlock env fuel (runSetup env arg s)).2 := by
  show (match tryBlock env fuel (runSetup env arg s) with
        | (s2, e) => runHandle s2 e) = _
  cases htb : tryBlock env fuel (runSetup env arg s) with
  | mk s2 e => rfl

/- ---------------------------------------------------------------------
Claim C9: the target step cannot change on resume.
--------------------------------------------------------------------- -/

lemma add_max_steps (s : Sim) (c : CbId) (p : Params) :
    (s.add c p).max_steps = s.max_steps := by
  by_cases ht : isTargeter c = true <;> simp [Sim.add, ht]

lemma run_pre_max_steps (env : Env) (s : Sim) :
    (run_pre env s).max_steps = s.max_steps := by
  rw [run_pre_eq]

/-- Claim C9.  When run is called on a resuming engine (restart true,
positive step count), the max_steps field of the resulting state equals the
one before the call, whatever step count is requested: the target step
cannot change on resume. -/
theorem claim_C9_resume_preserves_target (env : Env) (fuel : Nat) (n : Int)
    (s : Sim) (hr : s.restart = true) (hst : 0 < s.steps) :
    (run env fuel (some n) s).1.max_steps = s.max_steps := by
  have hsetup : (runSetup env (some n) s).max_steps = s.max_steps := by
    have hreset : runReset (some n) s = s := by
      have hcond : ¬ ((!s.restart || s.steps == 0) = true) := by
        simp [hr]
        omega
      unfold runReset
      rw [if_neg hcond]
    simp only [runSetup, hreset]
    rw [run_pre_max_steps, add_max_steps]
  rw [run_eq]
  obtain ⟨E, hH⟩ := runHandle_shape
    (tryBlock env fuel (runSetup env (some n) s)).1
    (tryBlock env fuel (runSetup env (some n) s)).2
  rw [hH]
  show (tryBlock env fuel (runSetup env (some n) s)).1.max_steps = s.max_steps
  obtain ⟨E2, a, b, hT⟩ := tryBlock_shape env fuel (runSetup env (some n) s)
  rw [hT]
  exact hsetup

/-- A resuming state at step 3 with target 10, for the C9 witness. -/
def simC9 : Sim :=
  { baseSim with restart := true, steps := 3, max_steps := 10 }

theorem claim_C9_resume_preserves_target_witness :
    (run envAllClear 1 (some 99) simC9).1.max_steps = simC9.max_steps :=
  claim_C9_resume_preserves_target envAllClear 1 99 simC9 rfl (by decide)

/- ---------------------------------------------------------------------
Claims C4 and C6: the loop advances to the minimum trigger, notifies all
tied observers, and checkpoints after them.
--------------------------------------------------------------------- -/

lemma foldl_min_le_init : ∀ (l : List Int) (a : Int), l.foldl min a ≤ a := by
  intro l
  induction l with
  | nil => intro a; exact le_refl a
  | cons b t ih => intro a; exact le_trans (ih (min a b)) (min_le_left a b)

lemma foldl_min_le_mem :
    ∀ (l : List Int) (a x : Int), x ∈ l → l.foldl min a ≤ x := by
  intro l
  induction l with
  | nil => intro a x hx; cases hx
  | cons b t ih =>
    intro a x hx
    rcases List.mem_cons.mp hx with rfl | hx2
    · exact le_trans (foldl_min_le_init t (min a x)) (min_le_right a x)
    · exact ih (min a b) x hx2

lemma foldl_min_mem :
    ∀ (l : List Int) (a : Int), l.foldl min a = a ∨ l.foldl min a ∈ l := by
  intro l
  induction l with
  | nil => intro a; exact Or.inl rfl
  | cons b t ih =>
    intro a
    rcases ih (min a b) with h | h
    · rcases min_choice a b with hm | hm
      · left; rw [List.foldl_cons, h, hm]
      · right; rw [List.foldl_cons, h, hm]; exact List.mem_cons_self b t
    · right; exact List.mem_cons_of_mem b h

lemma dueObservers_subset (s : Sim) (all : List Int) (n : Int) :
    ∀ c ∈ dueObservers s all n, c ∈ s.callback := by
  intro c hc
  unfold dueObservers at hc
  rcases List.mem_filterMap.mp hc with ⟨⟨c1, st⟩, hmem, hf⟩
  by_cases h : st = n
  · rw [if_pos h] at hf
    cases hf
    exact (List.of_mem_zip hmem).1
  · rw [if_neg h] at hf
    cases hf

/-- Recognizer for notification events in the trace. -/
def isNotifiedEv : Ev → Bool
  | Ev.notified _ => true
  | _ => false

lemma filter_notified (l : List CbId) :
    List.filter (isNotifiedEv ∘ Ev.notified) l = l := by
  induction l with
  | nil => rfl
  | cons a t ih => simp [List.filter, isNotifiedEv, Function.comp, ih]

/-- The state after run_until and the batch notification of one normally
completing loop iteration. -/
def iterState (s : Sim) (all : List Int) : Sim :=
  { s with
    steps := nextStep s all,
    backend_steps := nextStep s all,
    events := s.events ++ (dueObservers s all (nextStep s all)).map Ev.notified }

/-- Evaluation of one loop iteration when every observer returns normally. -/
lemma loopIter_ok (env : Env) (s : Sim) (all : List Int)
    (hall : allSteps s = some all)
    (hok : ∀ c ∈ s.callback, (env.obs c).act (nextStep s all) = ObsAct.ok) :
    loopIter env s =
      (if nextStep s all = nextCkpt s then
        (write_checkpoint (iterState s all), none)
       else (iterState s all, none)) := by
  have hokd : ∀ c ∈ dueObservers (run_until s (nextStep s all)) all
        (nextStep s all),
      (env.obs c).act (run_until s (nextStep s all)).steps = ObsAct.ok := by
    intro c hc
    exact hok c (dueObservers_subset (run_until s (nextStep s all)) all
      (nextStep s all) c hc)
  have hnl := notifyList_ok env
    (dueObservers (run_until s (nextStep s all)) all (nextStep s all))
    (run_until s (nextStep s all)) hokd
  simp only [loopIter, hall, hnl]
  rfl

/-- Claim C4.  In one loop iteration with well-formed parameters and no
raising observer, the step advanced to is the minimum of the scheduler
results and the checkpoint trigger (it is a lower bound of, and belongs to,
that collection), and the notification events appended by the iteration are
exactly one per observer whose scheduler result equals that minimum, in
registry order. -/
theorem claim_C4_min_batch (env : Env) (s : Sim) (all : List Int)
    (hall : allSteps s = some all)
    (hok : ∀ c ∈ s.callback, (env.obs c).act (nextStep s all) = ObsAct.ok) :
    (loopIter env s).1.steps = nextStep s all ∧
    ((loopIter env s).1.events.drop s.events.length).filter isNotifiedEv =
      (dueObservers s all (nextStep s all)).map Ev.notified ∧
    (∀ x ∈ nextCkpt s :: all, nextStep s all ≤ x) ∧
    nextStep s all ∈ nextCkpt s :: all := by
  rw [loopIter_ok env s all hall hok]
  refine ⟨?_, ?_, ?_, ?_⟩
  · by_cases hck : nextStep s all = nextCkpt s
    · rw [if_pos hck]
      cases hb : s.backend_has_checkpoint <;>
        simp [write_checkpoint, hb, Sim.logEv, iterState]
    · rw [if_neg hck]
      rfl
  · by_cases hck : nextStep s all = nextCkpt s
    · rw [if_pos hck]
      cases hb : s.backend_has_checkpoint <;>
        simp [write_checkpoint, hb, Sim.logEv, iterState, List.append_assoc,
          List.drop_left, List.filter_append, List.filter_map,
          isNotifiedEv, Function.comp, filter_notified]
    · rw [if_neg hck]
      simp [iterState, List.drop_left, List.filter_map, isNotifiedEv,
        Function.comp, filter_notified]
  · intro x hx
    rcases List.mem_cons.mp hx with rfl | hx2
    · exact foldl_min_le_init all (nextCkpt s)
    · exact foldl_min_le_mem all (nextCkpt s) x hx2
  · rcases foldl_min_mem all (nextCkpt s) with h | h
    · exact List.mem_cons.mpr (Or.inl h)
    · exact List.mem_cons.mpr (Or.inr h)

/-- An environment in which no observer has hooks and none raises. -/
def envC4 : Env where
  obs := fun _ => ⟨false, false, fun _ => ObsAct.ok⟩
  backendPre := fun _ b => b

/-- A registry with two writers sharing a cadence of 3 and a checkpoint
cadence of 5, producing a tie at the minimum. -/
def simC4 : Sim :=
  { baseSim with
    callback := [⟨0, "writer_a"⟩, ⟨1, "writer_b"⟩],
    params := fun _ => some ⟨fun st => st + 3, []⟩,
    checkpoint_sched := fun st => st + 5 }

theorem claim_C4_min_batch_witness :
    (loopIter envC4 simC4).1.steps = nextStep simC4 [3, 3] ∧
    ((loopIter envC4 simC4).1.events.drop
        simC4.events.length).filter isNotifiedEv =
      (dueObservers simC4 [3, 3] (nextStep simC4 [3, 3])).map Ev.notified ∧
    (∀ x ∈ nextCkpt simC4 :: [3, 3], nextStep simC4 [3, 3] ≤ x) ∧
    nextStep simC4 [3, 3] ∈ nextCkpt simC4 :: [3, 3] :=
  claim_C4_min_batch envC4 simC4 [3, 3] (by decide) (by decide)

lemma add_hcp (s : Sim) (c : CbId) (p : Params) :
    (s.add c p).backend_has_checkpoint = s.backend_has_checkpoint := by
  by_cases ht : isTargeter c = true <;> simp [Sim.add, ht]

lemma runReset_hcp (arg : Option Int) (s : Sim) :
    (runReset arg s).backend_has_checkpoint = s.backend_has_checkpoint := by
  unfold runReset
  by_cases h : (!s.restart || s.steps == 0) = true
  · cases arg <;> simp [h]
  · cases arg <;> simp [h]

lemma run_pre_hcp (env : Env) (s : Sim) :
    (run_pre env s).backend_has_checkpoint = s.backend_has_checkpoint := by
  rw [run_pre_eq]

lemma runSetup_hcp (env : Env) (arg : Option Int) (s : Sim) :
    (runSetup env arg s).backend_has_checkpoint =
      s.backend_has_checkpoint := by
  simp only [runSetup]
  rw [run_pre_hcp, add_hcp, runReset_hcp]

/-- A run that reports a normal end has written the final checkpoint. -/
lemma run_ended_checkpoint (env : Env) (fuel : Nat) (arg : Option Int)
    (s0 : Sim) (hcp0 : s0.backend_has_checkpoint = true)
    (hend : (run env fuel arg s0).2 = RunOutcome.ended) :
    Ev.checkpoint ∈ (run env fuel arg s0).1.events := by
  rw [run_eq] at hend ⊢
  cases htb : tryBlock env fuel (runSetup env arg s0) with
  | mk s2 e =>
    have hcp2 : s2.backend_has_checkpoint = true := by
      obtain ⟨E, a, b, hT⟩ := tryBlock_shape env fuel (runSetup env arg s0)
      simp only [htb] at hT
      rw [hT]
      exact (runSetup_hcp env arg s0).trans hcp0
    rw [htb] at hend
    cases e with
    | none => simp [runHandle] at hend
    | some exc =>
      cases exc with
      | simulationEnd =>
        show Ev.checkpoint ∈ (runHandle s2 (some Exc.simulationEnd)).1.events
        rw [runHandle_end_eq]
        simp [hcp2]
      | keyboardInterrupt => simp [runHandle] at hend
      | otherError => simp [runHandle] at hend

/-- Claim C6.  In a normally completing iteration with a checkpoint-capable
backend, the events appended are exactly the notifications of the due
observers followed, exactly when the step reached equals the checkpoint
trigger, by one checkpoint write (hence strictly after the notifications);
and a run that terminates normally has a checkpoint in its trace. -/
theorem claim_C6_checkpoint_timing (env : Env) (s : Sim) (all : List Int)
    (fuel : Nat) (arg : Option Int) (s0 : Sim)
    (hall : allSteps s = some all)
    (hok : ∀ c ∈ s.callback, (env.obs c).act (nextStep s all) = ObsAct.ok)
    (hcp : s.backend_has_checkpoint = true)
    (hcp0 : s0.backend_has_checkpoint = true)
    (hend : (run env fuel arg s0).2 = RunOutcome.ended) :
    (loopIter env s).1.events = s.events ++
      ((dueObservers s all (nextStep s all)).map Ev.notified ++
        (if nextStep s all = nextCkpt s then [Ev.checkpoint] else [])) ∧
    Ev.checkpoint ∈ (run env fuel arg s0).1.events := by
  refine ⟨?_, run_ended_checkpoint env fuel arg s0 hcp0 hend⟩
  rw [loopIter_ok env s all hall hok]
  by_cases hck : nextStep s all = nextCkpt s
  · rw [if_pos hck, if_pos hck]
    simp [write_checkpoint, iterState, hcp, Sim.logEv, List.append_assoc]
  · rw [if_neg hck, if_neg hck]
    simp [iterState]

/-- An environment in which targeters raise the end-of-run signal and every
other observer returns normally. -/
def envC6 : Env where
  obs := fun c =>
    if isTargeter c then ⟨false, false, fun _ => ObsAct.raised Exc.simulationEnd⟩
    else ⟨false, false, fun _ => ObsAct.ok⟩
  backendPre := fun _ b => b

/-- A registry with one writer whose cadence coincides with the checkpoint
cadence, so the iteration both notifies and checkpoints. -/
def simC6 : Sim :=
  { baseSim with
    callback := [⟨0, "writer_a"⟩],
    params := fun _ => some ⟨fun st => st + 5, []⟩,
    checkpoint_sched := fun st => st + 5 }

theorem claim_C6_checkpoint_timing_witness :
    (loopIter envC6 simC6).1.events = simC6.events ++
      ((dueObservers simC6 [5] (nextStep simC6 [5])).map Ev.notified ++
        (if nextStep simC6 [5] = nextCkpt simC6 then [Ev.checkpoint] else [])) ∧
    Ev.checkpoint ∈ (run envC6 0 none baseSim).1.events :=
  claim_C6_checkpoint_timing envC6 simC6 [5] 0 none baseSim
    (by decide) (by decide) rfl rfl (by decide)

end Atooms
